import Mathlib

/-!
# Verification of the uhmb virtual trading ledger and order-execution engine

Shallow embedding of the wallet store (the Zustand store in the repository:
`useWalletStore`): cash balance, holdings with average cost, fee/slippage
adjusted buy/sell, pending conditional orders (limit / stop-loss /
take-profit) with trigger evaluation, daily bonus and wallet reset.

Modelling conventions:
* All JS `number` quantities are represented as `ℚ` (exact arithmetic; the
  source claims are about real-valued accounting, floating point is out of
  scope of this embedding).
* `Math.random()` draws are passed explicitly: a draw `r` with `0 ≤ r < 1`.
* `new Date()` timestamps are passed explicitly as `Nat` values (ms since
  epoch); `toDateString()` values are passed as `String`.
* `generateId()` is modelled by a fresh-id counter `nextId` threaded through
  the wallet state; ids are `Nat`.
* JS `Record<string, T>` objects are modelled as insertion-ordered
  association lists, with JS object-spread update and `delete` semantics.
* Error strings of the source are modelled by the inductive `WalletError`
  (`insufficientBalance` is the source's "Insufficient balance", etc.).
-/

/-- A cryptocurrency position (source interface `Holding`). -/
structure Holding where
  symbol : String
  name : String
  shortName : String
  amount : ℚ
  avgBuyPrice : ℚ
  color : String
deriving Repr, DecidableEq

/-- Source type `OrderType`. -/
inductive OrderType where
  | market
  | limit
  | stopLoss
  | takeProfit
deriving Repr, DecidableEq

/-- Source type `OrderSide`. -/
inductive OrderSide where
  | buy
  | sell
deriving Repr, DecidableEq

/-- Source type `OrderStatus`. -/
inductive OrderStatus where
  | pending
  | filled
  | cancelled
  | expired
deriving Repr, DecidableEq

/-- Source interface `PendingOrder`. Per the source comment on `amount`:
"USD amount for buy, crypto amount for sell". -/
structure PendingOrder where
  id : Nat
  type : OrderType
  side : OrderSide
  symbol : String
  name : String
  shortName : String
  amount : ℚ
  targetPrice : ℚ
  createdAt : Nat
  expiresAt : Option Nat
  status : OrderStatus
  color : String
deriving Repr, DecidableEq

/-- Transaction kinds (source union `'buy' | 'sell' | 'deposit' | 'bonus'`). -/
inductive TxType where
  | buy
  | sell
  | deposit
  | bonus
deriving Repr, DecidableEq

/-- Source interface `Transaction` (journal `note` field unused by the store
itself and omitted). -/
structure Transaction where
  id : Nat
  type : TxType
  orderType : Option OrderType
  symbol : String
  name : String
  amount : ℚ
  price : ℚ
  total : ℚ
  fee : ℚ
  slippage : Option ℚ
  timestamp : Nat
deriving Repr, DecidableEq

/-- Source interface `JournalEntry`. -/
structure JournalEntry where
  id : Nat
  transactionId : Nat
  note : String
  tags : List String
  createdAt : Nat
  updatedAt : Nat
deriving Repr, DecidableEq

/-- User tiers (source union type). -/
inductive UserTier where
  | free
  | starter
  | pro
  | ultimate
deriving Repr, DecidableEq

/-- The error outcomes the store's mutators report (source strings:
"Insufficient balance", "Insufficient holdings",
"Insufficient holdings for take-profit", "Already claimed today",
"Upgrade to get daily bonus", "Order not found",
"Order cannot be cancelled"). -/
inductive WalletError where
  | insufficientBalance
  | insufficientHoldings
  | alreadyClaimed
  | upgradeRequired
  | orderNotFound
  | orderNotCancellable
deriving Repr, DecidableEq

/-- JS `Record<string, Holding>` as an insertion-ordered association list. -/
abbrev Holdings := List (String × Holding)

/-- JS `Record<string, number>` price map. -/
abbrev PriceMap := List (String × ℚ)

/-- JS property read `obj[key]` (returning `undefined` when absent). -/
def recLookup {α : Type} (m : List (String × α)) (key : String) : Option α :=
  (m.find? (fun p => p.1 == key)).map (fun p => p.2)

/-- JS object-spread update `{...m, [key]: v}`: replaces in place when the
key exists (JS objects keep the first-insertion position), else appends. -/
def recInsert {α : Type} (m : List (String × α)) (key : String) (v : α) :
    List (String × α) :=
  if m.any (fun p => p.1 == key) then
    m.map (fun p => if p.1 == key then (key, v) else p)
  else
    m ++ [(key, v)]

/-- JS `delete m[key]`. -/
def recDelete {α : Type} (m : List (String × α)) (key : String) :
    List (String × α) :=
  m.filter (fun p => p.1 != key)

/-- Source constant `TRADING_FEE_PERCENT = 0.1` (0.1% trading fee). -/
def TRADING_FEE_PERCENT : ℚ := 1 / 10

/-- Source table `DAILY_BONUS`. -/
def DAILY_BONUS : UserTier → ℚ
  | .free => 0
  | .starter => 50
  | .pro => 100
  | .ultimate => 2000

/-- Source constant `INITIAL_BALANCE = 500`. -/
def INITIAL_BALANCE : ℚ := 500

/-- Source helper `calculateSlippage(price, slippagePercent, isBuy)`;
`r` is the `Math.random()` draw. -/
def calculateSlippage (r price slippagePercent : ℚ) (isBuy : Bool) : ℚ :=
  let randomFactor := r * slippagePercent
  let slippageAmount := price * (randomFactor / 100)
  if isBuy then slippageAmount else -slippageAmount

/-- Source helper `getExecutedPrice(price, slippagePercent, isBuy)`. -/
def getExecutedPrice (r price slippagePercent : ℚ) (isBuy : Bool) : ℚ :=
  price + calculateSlippage r price slippagePercent isBuy

/-- The persistent wallet-store state (fields of `WalletState` that carry
data; `nextId` models the `generateId()` id source). -/
structure WalletState where
  balance : ℚ
  initialDeposit : ℚ
  holdings : Holdings
  transactions : List Transaction
  pendingOrders : List PendingOrder
  journalEntries : List JournalEntry
  userTier : UserTier
  lastBonusClaim : Option String
  slippageEnabled : Bool
  slippagePercent : ℚ
  nextId : Nat
deriving Repr, DecidableEq

/-- Result shape of `buy`/`sell`:
`{ success: boolean; error?: string; executedPrice?: number }`. -/
structure TradeResult where
  success : Bool
  error : Option WalletError
  executedPrice : Option ℚ
deriving Repr, DecidableEq

/-- Result shape of the order-placement actions:
`{ success: boolean; orderId?: string; error?: string }`. -/
structure OrderResult where
  success : Bool
  orderId : Option Nat
  error : Option WalletError
deriving Repr, DecidableEq

/-- Result shape of `claimDailyBonus`:
`{ success: boolean; amount: number; error?: string }`. -/
structure BonusResult where
  success : Bool
  amount : ℚ
  error : Option WalletError
deriving Repr, DecidableEq

def usdSymbol : String := "USD"
def initialDepositName : String := "Initial Deposit"
def depositName : String := "Deposit"
def dailyBonusName : String := "Daily Bonus"
def walletResetName : String := "Wallet Reset"

/-- The store's initial state (`now` is the creation timestamp). -/
def initialState (now : Nat) : WalletState :=
  { balance := INITIAL_BALANCE
    initialDeposit := INITIAL_BALANCE
    holdings := []
    transactions := [
      { id := 0
        type := .deposit
        orderType := none
        symbol := usdSymbol
        name := initialDepositName
        amount := INITIAL_BALANCE
        price := 1
        total := INITIAL_BALANCE
        fee := 0
        slippage := none
        timestamp := now }]
    pendingOrders := []
    journalEntries := []
    userTier := .free
    lastBonusClaim := none
    slippageEnabled := true
    slippagePercent := 1 / 10
    nextId := 1 }

/-- Source action `deposit(amount)` (returns `void`: unconditional). -/
def deposit (s : WalletState) (now : Nat) (amount : ℚ) : WalletState :=
  { s with
    balance := s.balance + amount
    initialDeposit := s.initialDeposit + amount
    transactions :=
      { id := s.nextId
        type := .deposit
        orderType := none
        symbol := usdSymbol
        name := depositName
        amount := amount
        price := 1
        total := amount
        fee := 0
        slippage := none
        timestamp := now } :: s.transactions
    nextId := s.nextId + 1 }

/-- Source action `buy(symbol, name, shortName, amount, price, color)`;
`r` is the slippage random draw, `now` the transaction timestamp. -/
def buy (s : WalletState) (r : ℚ) (now : Nat)
    (symbol name shortName : String) (amount price : ℚ) (color : String) :
    WalletState × TradeResult :=
  let executedPrice :=
    if s.slippageEnabled then getExecutedPrice r price s.slippagePercent true
    else price
  let slippage := executedPrice - price
  let fee := amount * (TRADING_FEE_PERCENT / 100)
  let totalCost := amount + fee
  if totalCost > s.balance then
    (s, { success := false, error := some .insufficientBalance,
          executedPrice := none })
  else
    let cryptoAmount := amount / executedPrice
    let existingHolding := recLookup s.holdings symbol
    let newPos : ℚ × ℚ :=
      match existingHolding with
      | some h =>
          let totalValue := h.amount * h.avgBuyPrice + amount
          let newAmount := h.amount + cryptoAmount
          (totalValue / newAmount, newAmount)
      | none => (executedPrice, cryptoAmount)
    let s' :=
      { s with
        balance := s.balance - totalCost
        holdings := recInsert s.holdings symbol
          { symbol := symbol, name := name, shortName := shortName
            amount := newPos.2, avgBuyPrice := newPos.1, color := color }
        transactions :=
          { id := s.nextId
            type := .buy
            orderType := some .market
            symbol := symbol
            name := name
            amount := cryptoAmount
            price := executedPrice
            total := amount
            fee := fee
            slippage := if slippage > 0 then some slippage else none
            timestamp := now } :: s.transactions
        nextId := s.nextId + 1 }
    (s', { success := true, error := none, executedPrice := some executedPrice })

/-- Source action `sell(symbol, amount, price)`. -/
def sell (s : WalletState) (r : ℚ) (now : Nat)
    (symbol : String) (amount price : ℚ) : WalletState × TradeResult :=
  match recLookup s.holdings symbol with
  | none =>
      (s, { success := false, error := some .insufficientHoldings,
            executedPrice := none })
  | some holding =>
      if holding.amount < amount then
        (s, { success := false, error := some .insufficientHoldings,
              executedPrice := none })
      else
        let executedPrice :=
          if s.slippageEnabled then
            getExecutedPrice r price s.slippagePercent false
          else price
        let slippage := price - executedPrice
        let totalValue := amount * executedPrice
        let fee := totalValue * (TRADING_FEE_PERCENT / 100)
        let netValue := totalValue - fee
        let newAmount := holding.amount - amount
        let newHoldings :=
          if newAmount ≤ 1 / 100000000 then recDelete s.holdings symbol
          else recInsert s.holdings symbol { holding with amount := newAmount }
        let s' :=
          { s with
            balance := s.balance + netValue
            holdings := newHoldings
            transactions :=
              { id := s.nextId
                type := .sell
                orderType := some .market
                symbol := symbol
                name := holding.name
                amount := amount
                price := executedPrice
                total := totalValue
                fee := fee
                slippage := if slippage > 0 then some slippage else none
                timestamp := now } :: s.transactions
            nextId := s.nextId + 1 }
        (s', { success := true, error := none,
               executedPrice := some executedPrice })

/-- Source action `placeTakeProfit(symbol, amount, targetPrice)`; `amount`
is a crypto quantity (validated against `holding.amount`). -/
def placeTakeProfit (s : WalletState) (now : Nat)
    (symbol : String) (amount targetPrice : ℚ) : WalletState × OrderResult :=
  match recLookup s.holdings symbol with
  | none =>
      (s, { success := false, orderId := none,
            error := some .insufficientHoldings })
  | some holding =>
      if holding.amount < amount then
        (s, { success := false, orderId := none,
              error := some .insufficientHoldings })
      else
        let order : PendingOrder :=
          { id := s.nextId
            type := .takeProfit
            side := .sell
            symbol := symbol
            name := holding.name
            shortName := holding.shortName
            amount := amount
            targetPrice := targetPrice
            createdAt := now
            expiresAt := none
            status := .pending
            color := holding.color }
        ({ s with pendingOrders := s.pendingOrders ++ [order]
                  nextId := s.nextId + 1 },
         { success := true, orderId := some order.id, error := none })

/-- Source action `claimDailyBonus()`; `today` is
`new Date().toDateString()`. -/
def claimDailyBonus (s : WalletState) (now : Nat) (today : String) :
    WalletState × BonusResult :=
  if s.lastBonusClaim == some today then
    (s, { success := false, amount := 0, error := some .alreadyClaimed })
  else
    let bonusAmount := DAILY_BONUS s.userTier
    if bonusAmount == 0 then
      (s, { success := false, amount := 0, error := some .upgradeRequired })
    else
      ({ s with
         balance := s.balance + bonusAmount
         lastBonusClaim := some today
         transactions :=
           { id := s.nextId
             type := .bonus
             orderType := none
             symbol := usdSymbol
             name := dailyBonusName
             amount := bonusAmount
             price := 1
             total := bonusAmount
             fee := 0
             slippage := none
             timestamp := now } :: s.transactions
         nextId := s.nextId + 1 },
       { success := true, amount := bonusAmount, error := none })

/-- Source action `resetWallet()`. The source's `set` call is a partial
update: `userTier`, `slippageEnabled` and `slippagePercent` are not in the
object and are kept. -/
def resetWallet (s : WalletState) (now : Nat) : WalletState :=
  { s with
    balance := INITIAL_BALANCE
    initialDeposit := INITIAL_BALANCE
    holdings := []
    transactions := [
      { id := s.nextId
        type := .deposit
        orderType := none
        symbol := usdSymbol
        name := walletResetName
        amount := INITIAL_BALANCE
        price := 1
        total := INITIAL_BALANCE
        fee := 0
        slippage := none
        timestamp := now }]
    pendingOrders := []
    journalEntries := []
    lastBonusClaim := none
    nextId := s.nextId + 1 }

/-- Source getter `getHolding(symbol)`. -/
def getHolding (s : WalletState) (symbol : String) : Option Holding :=
  recLookup s.holdings symbol

/-- The `set` call that marks the order with id `oid` with status `st`
inside `cancelOrder` / `checkAndExecuteOrders`. -/
def markOrder (orders : List PendingOrder) (oid : Nat) (st : OrderStatus) :
    List PendingOrder :=
  orders.map (fun o => if o.id == oid then { o with status := st } else o)

/-- The state update performed by the `set` calls of
`checkAndExecuteOrders` that change one order's status. -/
def markStatus (s : WalletState) (oid : Nat) (st : OrderStatus) : WalletState :=
  { s with pendingOrders := markOrder s.pendingOrders oid st }

/-- One iteration of the `forEach` body of `checkAndExecuteOrders`:
`order` comes from the entry snapshot, the accumulator carries the current
state and the index of the next random draw from `rand`. -/
def processOrder (rand : Nat → ℚ) (now : Nat) (currentPrices : PriceMap)
    (acc : WalletState × Nat) (order : PendingOrder) : WalletState × Nat :=
  let s := acc.1
  let k := acc.2
  if order.status ≠ .pending then acc
  else if (match order.expiresAt with
           | some e => decide (e < now)
           | none => false : Bool) then
    (markStatus s order.id .expired, k)
  else
    match recLookup currentPrices order.symbol with
    | none => acc
    | some currentPrice =>
        -- JS `if (!currentPrice) return`: a price of 0 is falsy.
        if currentPrice = 0 then acc
        else
          let shouldExecute : Bool :=
            match order.type, order.side with
            | .limit, .buy => decide (currentPrice ≤ order.targetPrice)
            | .limit, .sell => decide (currentPrice ≥ order.targetPrice)
            | .stopLoss, _ => decide (currentPrice ≤ order.targetPrice)
            | .takeProfit, _ => decide (currentPrice ≥ order.targetPrice)
            | .market, _ => false
          if shouldExecute then
            match order.side with
            | .buy =>
                let step := buy s (rand k) now order.symbol order.name
                  order.shortName order.amount order.targetPrice order.color
                if step.2.success then
                  (markStatus step.1 order.id .filled, k + 1)
                else (step.1, k + 1)
            | .sell =>
                let cryptoAmount := order.amount / order.targetPrice
                let step := sell s (rand k) now order.symbol cryptoAmount
                  order.targetPrice
                if step.2.success then
                  (markStatus step.1 order.id .filled, k + 1)
                else (step.1, k + 1)
          else acc

/-- Source action `checkAndExecuteOrders(currentPrices)`: iterates the
entry snapshot of `pendingOrders`, threading the live state. -/
def checkAndExecuteOrders (s : WalletState) (rand : Nat → ℚ) (now : Nat)
    (currentPrices : PriceMap) : WalletState :=
  (s.pendingOrders.foldl (processOrder rand now currentPrices) (s, 0)).1

/-! ## Concrete data used by the scenario theorems and witnesses -/

def btc : String := "BTCUSDT"
def btcName : String := "Bitcoin"
def btcShort : String := "BTC"
def btcColor : String := "#F7931A"

/-- One `buy` request (all the per-call arguments of the `buy` action,
including its random draw and timestamp). -/
structure BuyReq where
  r : ℚ
  now : Nat
  symbol : String
  name : String
  shortName : String
  amount : ℚ
  price : ℚ
  color : String
deriving Repr, DecidableEq

/-- Running one `buy` request for its state effect. -/
def buyStep (s : WalletState) (req : BuyReq) : WalletState :=
  (buy s req.r req.now req.symbol req.name req.shortName req.amount req.price
    req.color).1

/-- The take-profit trigger scenario: a wallet holding 0.002 BTC at average
cost 50000, with slippage disabled. -/
def tpStart : WalletState :=
  { balance := 3999 / 10
    initialDeposit := 500
    holdings := [(btc,
      { symbol := btc, name := btcName, shortName := btcShort
        amount := 1 / 500, avgBuyPrice := 50000, color := btcColor })]
    transactions := []
    pendingOrders := []
    journalEntries := []
    userTier := .free
    lastBonusClaim := none
    slippageEnabled := false
    slippagePercent := 1 / 10
    nextId := 2 }

/-- The BTC holding of the scenario wallet. -/
def tpHolding : Holding :=
  { symbol := btc, name := btcName, shortName := btcShort
    amount := 1 / 500, avgBuyPrice := 50000, color := btcColor }

/-- The pending take-profit order for 0.002 BTC at target 55000 created by
the scenario placement. -/
def tpOrder : PendingOrder :=
  { id := 2, type := .takeProfit, side := .sell, symbol := btc
    name := btcName, shortName := btcShort, amount := 1 / 500
    targetPrice := 55000, createdAt := 0, expiresAt := none
    status := .pending, color := btcColor }

/-- The scenario wallet right after the take-profit placement. -/
def tpMid : WalletState :=
  { tpStart with pendingOrders := [tpOrder], nextId := 3 }

/-- `placeTakeProfit('BTCUSDT', 0.002, 55000)` in the scenario wallet. -/
def tpPlaced : WalletState × OrderResult :=
  placeTakeProfit tpStart 0 btc (1 / 500) 55000

/-- `checkAndExecuteOrders({BTCUSDT: 56000})` after the placement. -/
def tpAfter : WalletState :=
  checkAndExecuteOrders tpPlaced.1 (fun _ => 0) 0 [(btc, 56000)]

/-- A slippage-disabled wallet used by the average-cost witness. -/
def avgCostStart : WalletState :=
  { initialState 0 with slippageEnabled := false }

/-- A slippage-enabled wallet (`slippagePercent = 0.5`) holding 1 BTC,
used by the slippage-bounds witness. -/
def slipStart : WalletState :=
  { balance := 500
    initialDeposit := 500
    holdings := [(btc,
      { symbol := btc, name := btcName, shortName := btcShort
        amount := 1, avgBuyPrice := 50000, color := btcColor })]
    transactions := []
    pendingOrders := []
    journalEntries := []
    userTier := .free
    lastBonusClaim := none
    slippageEnabled := true
    slippagePercent := 1 / 2
    nextId := 5 }

/-- A wallet with one cancelled order, used by the terminal-order witness. -/
def cancelledOrderState : WalletState :=
  { balance := 500
    initialDeposit := 500
    holdings := []
    transactions := []
    pendingOrders := [
      { id := 7
        type := .limit
        side := .buy
        symbol := btc
        name := btcName
        shortName := btcShort
        amount := 100
        targetPrice := 45000
        createdAt := 0
        expiresAt := some 10
        status := .cancelled
        color := btcColor }]
    journalEntries := []
    userTier := .free
    lastBonusClaim := none
    slippageEnabled := true
    slippagePercent := 1 / 10
    nextId := 8 }

/-- The invariant threaded through the `checkAndExecuteOrders` pass: the
live state's orders carry the same ids as the entry snapshot `base`, and
every order that was already terminal in `base` is untouched. -/
def OrdersInv (base : List PendingOrder) (t : WalletState) : Prop :=
  t.pendingOrders.map (fun o => o.id) = base.map (fun o => o.id) ∧
  ∀ (i : Nat) (hb : i < base.length) (ht : i < t.pendingOrders.length),
    (base.get ⟨i, hb⟩).status ≠ OrderStatus.pending →
    t.pendingOrders.get ⟨i, ht⟩ = base.get ⟨i, hb⟩

/-! ## Association-list lemmas -/

theorem recLookup_cons_pos {α : Type} (p : String × α) (t : List (String × α))
    (key : String) (h : p.1 = key) : recLookup (p :: t) key = some p.2 := by
  simp [recLookup, List.find?_cons_of_pos, h]

theorem recLookup_cons_neg {α : Type} (p : String × α) (t : List (String × α))
    (key : String) (h : ¬ p.1 = key) :
    recLookup (p :: t) key = recLookup t key := by
  simp only [recLookup]
  rw [List.find?_cons_of_neg]
  simpa using h

theorem recLookup_recDelete {α : Type} (m : List (String × α)) (key : String) :
    recLookup (recDelete m key) key = none := by
  induction m with
  | nil => rfl
  | cons p t ih =>
      by_cases h : p.1 = key
      · have hb : (p.1 != key) = false := by simp [h]
        simp only [recDelete, List.filter_cons, hb, Bool.false_eq_true,
          if_false] at ih ⊢
        exact ih
      · have hb : (p.1 != key) = true := by simp [h]
        simp only [recDelete, List.filter_cons, hb, if_true] at ih ⊢
        rw [recLookup_cons_neg _ _ _ h]
        exact ih

theorem recLookup_recInsert {α : Type} (m : List (String × α)) (key : String)
    (v : α) : recLookup (recInsert m key v) key = some v := by
  by_cases hmem : m.any (fun p => p.1 == key)
  · simp only [recInsert, if_pos hmem]
    induction m with
    | nil => simp at hmem
    | cons p t ih =>
        by_cases h : p.1 = key
        · rw [List.map_cons, if_pos (by simpa using h),
            recLookup_cons_pos _ _ _ rfl]
        · rw [List.map_cons, if_neg (by simpa using h),
            recLookup_cons_neg _ _ _ h]
          apply ih
          simp only [List.any_cons, Bool.or_eq_true, beq_iff_eq, h,
            false_or] at hmem
          exact hmem
  · simp only [recInsert, if_neg hmem]
    induction m with
    | nil => exact recLookup_cons_pos _ _ _ rfl
    | cons p t ih =>
        simp only [List.any_cons, Bool.or_eq_true, beq_iff_eq] at hmem
        push_neg at hmem
        rw [List.cons_append, recLookup_cons_neg _ _ _ hmem.1]
        apply ih
        simpa using hmem.2

/-! ## Unfolding lemmas for the ledger mutators -/

theorem buy_fail (s : WalletState) (r : ℚ) (now : Nat)
    (symbol name shortName color : String) (amount price : ℚ)
    (hc : amount + amount * (TRADING_FEE_PERCENT / 100) > s.balance) :
    buy s r now symbol name shortName amount price color =
      (s, { success := false, error := some WalletError.insufficientBalance,
            executedPrice := none }) := by
  simp only [buy, if_pos hc]

theorem buy_success_iff (s : WalletState) (r : ℚ) (now : Nat)
    (symbol name shortName color : String) (amount price : ℚ) :
    (buy s r now symbol name shortName amount price color).2.success = true ↔
      ¬ amount + amount * (TRADING_FEE_PERCENT / 100) > s.balance := by
  by_cases hc : amount + amount * (TRADING_FEE_PERCENT / 100) > s.balance
  · simp [buy, if_pos hc, hc]
  · simp [buy, if_neg hc, hc]

theorem buy_pendingOrders (s : WalletState) (r : ℚ) (now : Nat)
    (symbol name shortName color : String) (amount price : ℚ) :
    (buy s r now symbol name shortName amount price color).1.pendingOrders
      = s.pendingOrders := by
  by_cases hc : amount + amount * (TRADING_FEE_PERCENT / 100) > s.balance
  · simp only [buy, if_pos hc]
  · simp only [buy, if_neg hc]

theorem buy_balance_succ (s : WalletState) (r : ℚ) (now : Nat)
    (symbol name shortName color : String) (amount price : ℚ)
    (hc : ¬ amount + amount * (TRADING_FEE_PERCENT / 100) > s.balance) :
    (buy s r now symbol name shortName amount price color).1.balance
      = s.balance - (amount + amount * (TRADING_FEE_PERCENT / 100)) := by
  simp only [buy, if_neg hc]

theorem buy_balance_nonneg (s : WalletState) (r : ℚ) (now : Nat)
    (symbol name shortName color : String) (amount price : ℚ)
    (hs : 0 ≤ s.balance) :
    0 ≤ (buy s r now symbol name shortName amount price color).1.balance := by
  by_cases hc : amount + amount * (TRADING_FEE_PERCENT / 100) > s.balance
  · rw [buy_fail s r now symbol name shortName color amount price hc]
    exact hs
  · rw [buy_balance_succ s r now symbol name shortName color amount price hc]
    push_neg at hc
    linarith

theorem sell_pendingOrders (s : WalletState) (r : ℚ) (now : Nat)
    (symbol : String) (amount price : ℚ) :
    (sell s r now symbol amount price).1.pendingOrders = s.pendingOrders := by
  unfold sell
  cases recLookup s.holdings symbol with
  | none => rfl
  | some holding =>
      by_cases hlt : holding.amount < amount
      · simp only [if_pos hlt]
      · simp only [if_neg hlt]


theorem claimDailyBonus_fail (s : WalletState) (now : Nat) (today : String)
    (h : (claimDailyBonus s now today).2.success = false) :
    (claimDailyBonus s now today).1 = s ∧
    (claimDailyBonus s now today).2.error ≠ none := by
  by_cases h1 : s.lastBonusClaim = some today
  · simp [claimDailyBonus, h1]
  · by_cases h2 : DAILY_BONUS s.userTier = 0
    · simp [claimDailyBonus, h1, h2]
    · simp [claimDailyBonus, h1, h2] at h

theorem sell_fail (s : WalletState) (r : ℚ) (now : Nat) (symbol : String)
    (amount price : ℚ)
    (h : (sell s r now symbol amount price).2.success = false) :
    sell s r now symbol amount price =
      (s, { success := false, error := some WalletError.insufficientHoldings,
            executedPrice := none }) := by
  unfold sell at *
  cases hrec : recLookup s.holdings symbol with
  | none => simp only [hrec]
  | some holding =>
      simp only [hrec] at h ⊢
      by_cases hlt : holding.amount < amount
      · simp only [if_pos hlt]
      · simp only [if_neg hlt] at h
        simp at h

/-! ## Claim theorems -/

/-- C10: `resetWallet`, from any state, sets balance and initialDeposit back
to the initial 500, empties holdings, pendingOrders and journalEntries,
clears lastBonusClaim, and replaces the transaction log with a single
deposit-type record of 500, while leaving `userTier`, `slippageEnabled` and
`slippagePercent` unchanged. -/
theorem resetWallet_resets_and_frames (s : WalletState) (now : Nat) :
    (resetWallet s now).balance = 500 ∧
    (resetWallet s now).initialDeposit = 500 ∧
    (resetWallet s now).holdings = [] ∧
    (resetWallet s now).pendingOrders = [] ∧
    (resetWallet s now).journalEntries = [] ∧
    (resetWallet s now).lastBonusClaim = none ∧
    (∃ tx : Transaction, (resetWallet s now).transactions = [tx] ∧
      tx.type = TxType.deposit ∧ tx.amount = 500 ∧ tx.total = 500 ∧
      tx.fee = 0) ∧
    (resetWallet s now).userTier = s.userTier ∧
    (resetWallet s now).slippageEnabled = s.slippageEnabled ∧
    (resetWallet s now).slippagePercent = s.slippagePercent := by
  refine ⟨rfl, rfl, rfl, rfl, rfl, rfl, ⟨_, rfl, rfl, rfl, rfl, rfl⟩,
    rfl, rfl, rfl⟩

/-- C9: the Ledger mutators `buy`, `sell` and `claimDailyBonus` are atomic:
whenever the returned result reports failure, the result carries the error
and the wallet state is completely unchanged (no partial application is
observable); a successful call is a single state transition. -/
theorem mutators_atomic (s : WalletState) (r : ℚ) (now : Nat)
    (symbol name shortName color : String) (amount price : ℚ)
    (today : String) :
    ((buy s r now symbol name shortName amount price color).2.success = false →
      (buy s r now symbol name shortName amount price color).1 = s ∧
      (buy s r now symbol name shortName amount price color).2.error =
        some WalletError.insufficientBalance) ∧
    ((sell s r now symbol amount price).2.success = false →
      (sell s r now symbol amount price).1 = s ∧
      (sell s r now symbol amount price).2.error =
        some WalletError.insufficientHoldings) ∧
    ((claimDailyBonus s now today).2.success = false →
      (claimDailyBonus s now today).1 = s ∧
      (claimDailyBonus s now today).2.error ≠ none) := by
  refine ⟨?_, ?_, claimDailyBonus_fail s now today⟩
  · intro h
    by_cases hc : amount + amount * (TRADING_FEE_PERCENT / 100) > s.balance
    · rw [buy_fail s r now symbol name shortName color amount price hc]
      exact ⟨rfl, rfl⟩
    · have hs := (buy_success_iff s r now symbol name shortName color
        amount price).2 hc
      simp [hs] at h
  · intro h
    rw [sell_fail s r now symbol amount price h]
    exact ⟨rfl, rfl⟩

theorem mutators_atomic_witness :
    ((buy (initialState 0) 0 1 btc btcName btcShort 1000 50000 btcColor).1
      = initialState 0) ∧
    ((sell (initialState 0) 0 1 btc 1 50000).1 = initialState 0) ∧
    ((claimDailyBonus (initialState 0) 1 depositName).1 = initialState 0) := by
  have hb : (buy (initialState 0) 0 1 btc btcName btcShort 1000 50000
      btcColor).2.success = false := by
    rw [buy_fail _ _ _ _ _ _ _ _ _ (by norm_num [initialState,
      INITIAL_BALANCE, TRADING_FEE_PERCENT])]
  have hsl : (sell (initialState 0) 0 1 btc 1 50000).2.success = false := by
    simp [sell, initialState, recLookup]
  have hcl : (claimDailyBonus (initialState 0) 1 depositName).2.success
      = false := by
    simp [claimDailyBonus, initialState, DAILY_BONUS]
  exact ⟨((mutators_atomic (initialState 0) 0 1 btc btcName btcShort btcColor
      1000 50000 depositName).1 hb).1,
    ((mutators_atomic (initialState 0) 0 1 btc btcName btcShort btcColor
      1 50000 depositName).2.1 hsl).1,
    ((mutators_atomic (initialState 0) 0 1 btc btcName btcShort btcColor
      1 50000 depositName).2.2 hcl).1⟩

/-- C4: no sequence of `buy` calls, whatever the arguments, can drive
`cashBalance` negative when it starts non-negative; and any single buy whose
required cash (notional + fee) exceeds the current balance returns failure
with the insufficient-balance error and changes no state field. -/
theorem buy_no_negative_balance (reqs : List BuyReq) (s : WalletState)
    (hs : 0 ≤ s.balance) :
    0 ≤ (reqs.foldl buyStep s).balance ∧
    (∀ req : BuyReq,
      req.amount + req.amount * (TRADING_FEE_PERCENT / 100) > s.balance →
      buy s req.r req.now req.symbol req.name req.shortName req.amount
          req.price req.color =
        (s, { success := false, error := some WalletError.insufficientBalance,
              executedPrice := none })) := by
  constructor
  · induction reqs generalizing s with
    | nil => exact hs
    | cons req rest ih =>
        exact ih (buyStep s req)
          (buy_balance_nonneg s req.r req.now req.symbol req.name
            req.shortName req.color req.amount req.price hs)
  · intro req hreq
    exact buy_fail s req.r req.now req.symbol req.name req.shortName
      req.color req.amount req.price hreq

/-- Witness for C4: from the initial 500-balance wallet, a two-buy sequence
keeps the balance non-negative, and the scenario buy of notional 1000 is
rejected unchanged. -/
theorem buy_no_negative_balance_witness :
    0 ≤ (([⟨0, 1, btc, btcName, btcShort, 100, 50000, btcColor⟩,
           ⟨0, 2, btc, btcName, btcShort, 1000, 50000, btcColor⟩] :
        List BuyReq).foldl buyStep (initialState 0)).balance ∧
    buy (initialState 0) 0 1 btc btcName btcShort 1000 50000 btcColor =
      (initialState 0,
       { success := false, error := some WalletError.insufficientBalance,
         executedPrice := none }) := by
  have h := buy_no_negative_balance
    [⟨0, 1, btc, btcName, btcShort, 100, 50000, btcColor⟩,
     ⟨0, 2, btc, btcName, btcShort, 1000, 50000, btcColor⟩]
    (initialState 0) (by norm_num [initialState, INITIAL_BALANCE])
  exact ⟨h.1, h.2 ⟨0, 1, btc, btcName, btcShort, 1000, 50000, btcColor⟩
    (by norm_num [initialState, INITIAL_BALANCE, TRADING_FEE_PERCENT])⟩

theorem buy_executedPrice_succ (s : WalletState) (r : ℚ) (now : Nat)
    (symbol name shortName color : String) (amount price : ℚ)
    (hc : ¬ amount + amount * (TRADING_FEE_PERCENT / 100) > s.balance) :
    (buy s r now symbol name shortName amount price color).2.executedPrice =
      some (if s.slippageEnabled then
              getExecutedPrice r price s.slippagePercent true
            else price) := by
  simp only [buy, if_neg hc]

theorem sell_executedPrice_succ (s : WalletState) (r : ℚ) (now : Nat)
    (symbol : String) (amount price : ℚ) (holding : Holding)
    (hrec : recLookup s.holdings symbol = some holding)
    (hlt : ¬ holding.amount < amount) :
    (sell s r now symbol amount price).2.executedPrice =
      some (if s.slippageEnabled then
              getExecutedPrice r price s.slippagePercent false
            else price) := by
  unfold sell
  simp only [hrec, if_neg hlt]

/-- C7: with slippage enabled at `slippagePercent = 0.5` and any random draw
`0 ≤ r < 1`, every buy execution price lies in
`[quotedPrice, quotedPrice*1.005]` and every sell execution price lies in
`[quotedPrice*0.995, quotedPrice]` — slippage is always unfavorable. -/
theorem slippage_bounds (s : WalletState) (r : ℚ) (now : Nat)
    (symbol name shortName color : String) (amount price : ℚ)
    (hen : s.slippageEnabled = true) (hsp : s.slippagePercent = 1 / 2)
    (hp : 0 ≤ price) (hr0 : 0 ≤ r) (hr1 : r < 1) :
    (∀ ep : ℚ,
      (buy s r now symbol name shortName amount price color).2.executedPrice
        = some ep → price ≤ ep ∧ ep ≤ price * (1005 / 1000)) ∧
    (∀ ep : ℚ,
      (sell s r now symbol amount price).2.executedPrice = some ep →
      price * (995 / 1000) ≤ ep ∧ ep ≤ price) := by
  have hpr : 0 ≤ price * r := mul_nonneg hp hr0
  have hpr1 : price * r ≤ price * 1 := mul_le_mul_of_nonneg_left hr1.le hp
  constructor
  · intro ep hep
    by_cases hc : amount + amount * (TRADING_FEE_PERCENT / 100) > s.balance
    · rw [buy_fail s r now symbol name shortName color amount price hc] at hep
      cases hep
    · rw [buy_executedPrice_succ s r now symbol name shortName color amount
        price hc] at hep
      simp only [hen, hsp, if_true, getExecutedPrice, calculateSlippage,
        Option.some_inj] at hep
      subst hep
      constructor <;> nlinarith
  · intro ep hep
    unfold sell at hep
    cases hrec : recLookup s.holdings symbol with
    | none => rw [hrec] at hep; cases hep
    | some holding =>
        simp only [hrec] at hep
        by_cases hlt : holding.amount < amount
        · simp only [if_pos hlt] at hep; cases hep
        · simp only [if_neg hlt, hen, hsp, if_true, getExecutedPrice,
            calculateSlippage, Bool.false_eq_true, if_false,
            Option.some_inj] at hep
          subst hep
          constructor <;> nlinarith

/-- Witness for C7: in a slippage-enabled wallet with
`slippagePercent = 0.5`, the draw `r = 1/2` prices a 50000-quoted buy at
50125 and a 50000-quoted sell at 49875; both satisfy the bounds. -/
theorem slippage_bounds_witness :
    ((50000 : ℚ) ≤ 50125 ∧ (50125 : ℚ) ≤ 50000 * (1005 / 1000)) ∧
    ((50000 : ℚ) * (995 / 1000) ≤ 49875 ∧ (49875 : ℚ) ≤ 50000) := by
  have h := slippage_bounds slipStart (1 / 2) 0 btc btcName btcShort btcColor
    1 50000 rfl rfl (by norm_num) (by norm_num) (by norm_num)
  refine ⟨h.1 50125 ?_, h.2 49875 ?_⟩
  · rw [buy_executedPrice_succ _ _ _ _ _ _ _ _ _
      (by norm_num [slipStart, TRADING_FEE_PERCENT])]
    norm_num [slipStart, getExecutedPrice, calculateSlippage]
  · rw [sell_executedPrice_succ _ _ _ _ _ _
      ⟨btc, btcName, btcShort, 1, 50000, btcColor⟩
      (recLookup_cons_pos _ _ _ rfl) (by norm_num)]
    norm_num [slipStart, getExecutedPrice, calculateSlippage]

/-- C6: selling a holding's entire quantity — or leaving a remainder below
the 1e-8 epsilon — succeeds and removes the symbol from the holdings map
entirely; `getHolding` then returns none. -/
theorem sell_all_removes_holding (s : WalletState) (r : ℚ) (now : Nat)
    (symbol : String) (amount price : ℚ) (h : Holding)
    (hrec : getHolding s symbol = some h)
    (hle : amount ≤ h.amount)
    (hall : amount = h.amount ∨ h.amount - amount < 1 / 100000000) :
    (sell s r now symbol amount price).2.success = true ∧
    getHolding (sell s r now symbol amount price).1 symbol = none := by
  have hlt : ¬ h.amount < amount := not_lt.2 hle
  have heps : h.amount - amount ≤ 1 / 100000000 := by
    rcases hall with heq | hlt'
    · rw [heq]; norm_num
    · exact hlt'.le
  rw [getHolding] at hrec
  unfold sell getHolding
  simp only [hrec, if_neg hlt, if_pos heps]
  exact ⟨trivial, recLookup_recDelete s.holdings symbol⟩

/-- Witness for C6: selling the whole 0.002 BTC position of the scenario
wallet leaves no BTCUSDT holding. -/
theorem sell_all_removes_holding_witness :
    (sell tpStart 0 0 btc (1 / 500) 55000).2.success = true ∧
    getHolding (sell tpStart 0 0 btc (1 / 500) 55000).1 btc = none :=
  sell_all_removes_holding tpStart 0 0 btc (1 / 500) 55000
    ⟨btc, btcName, btcShort, 1 / 500, 50000, btcColor⟩
    (recLookup_cons_pos _ _ _ rfl) (by norm_num) (Or.inl rfl)

theorem sell_balance_succ (s : WalletState) (r : ℚ) (now : Nat)
    (symbol : String) (amount price : ℚ) (holding : Holding)
    (hrec : recLookup s.holdings symbol = some holding)
    (hlt : ¬ holding.amount < amount) :
    (sell s r now symbol amount price).1.balance =
      s.balance +
        (amount * (if s.slippageEnabled = true then
                     getExecutedPrice r price s.slippagePercent false
                   else price) -
         amount * (if s.slippageEnabled = true then
                     getExecutedPrice r price s.slippagePercent false
                   else price) * (TRADING_FEE_PERCENT / 100)) := by
  unfold sell
  simp only [hrec, if_neg hlt]

theorem dailyBonus_nonneg (t : UserTier) : 0 ≤ DAILY_BONUS t := by
  cases t <;> norm_num [DAILY_BONUS]

/-- C2 counterexample: `deposit(-100)` is not rejected — it decreases the
balance from 500 to 400 and appends a transaction — and a buy with negative
notional `-100` succeeds; no InvalidAmount-style validation exists. -/
theorem invalid_amount_not_rejected_cex :
    (deposit (initialState 0) 1 (-100)).balance = 400 ∧
    (initialState 0).balance = 500 ∧
    (deposit (initialState 0) 1 (-100)).transactions.length
      = (initialState 0).transactions.length + 1 ∧
    (buy (initialState 0) 0 1 btc btcName btcShort (-100) 50000
        btcColor).2.success = true := by
  refine ⟨?_, ?_, ?_, ?_⟩
  · norm_num [deposit, initialState, INITIAL_BALANCE]
  · norm_num [initialState, INITIAL_BALANCE]
  · simp [deposit, initialState]
  · rw [buy_success_iff]
    norm_num [initialState, INITIAL_BALANCE, TRADING_FEE_PERCENT]

/-- C2 amended: no mutator validates non-positive amounts. For every
`amount ≤ 0`, `deposit` still applies it unconditionally, `buy` succeeds
(and mutates state) whenever the balance is non-negative — since
`amount + fee ≤ 0` always passes the only check, the balance one — and
`sell` succeeds whenever the holding check passes; rejection happens only
through the insufficient-balance / insufficient-holdings checks. -/
theorem mutators_no_amount_validation (s : WalletState) (r : ℚ) (now : Nat)
    (symbol name shortName color : String) (amount price : ℚ)
    (hamt : amount ≤ 0) (hbal : 0 ≤ s.balance) :
    (deposit s now amount).balance = s.balance + amount ∧
    (deposit s now amount).transactions.length = s.transactions.length + 1 ∧
    (buy s r now symbol name shortName amount price color).2.success = true ∧
    (buy s r now symbol name shortName amount price color).2.error = none ∧
    (buy s r now symbol name shortName amount price color).1.transactions.length
      = s.transactions.length + 1 ∧
    (∀ h : Holding, getHolding s symbol = some h → amount ≤ h.amount →
      (sell s r now symbol amount price).2.success = true) := by
  have hc : ¬ amount + amount * (TRADING_FEE_PERCENT / 100) > s.balance := by
    rw [TRADING_FEE_PERCENT]
    push_neg
    nlinarith
  refine ⟨rfl, by simp [deposit], ?_, ?_, ?_, ?_⟩
  · exact (buy_success_iff s r now symbol name shortName color amount price).2 hc
  · simp only [buy, if_neg hc]
  · simp only [buy, if_neg hc, List.length_cons]
  · intro h hrec hle
    rw [getHolding] at hrec
    unfold sell
    simp only [hrec, if_neg (not_lt.2 hle)]

/-- Witness for C2's amended theorem at the scenario wallet and
`amount = -100`: the negative deposit, buy and sell all go through. -/
theorem mutators_no_amount_validation_witness :
    (deposit tpStart 1 (-100)).balance = tpStart.balance + (-100) ∧
    (buy tpStart 0 1 btc btcName btcShort (-100) 50000 btcColor).2.success
      = true ∧
    (sell tpStart 0 1 btc (-100) 50000).2.success = true := by
  have h := mutators_no_amount_validation tpStart 0 1 btc btcName btcShort
    btcColor (-100) 50000 (by norm_num) (by norm_num [tpStart])
  exact ⟨h.1, h.2.2.1,
    h.2.2.2.2.2 ⟨btc, btcName, btcShort, 1 / 500, 50000, btcColor⟩
      (recLookup_cons_pos _ _ _ rfl) (by norm_num)⟩

/-- C3 counterexample: `deposit(-1000)` from the initial 500-balance wallet
is a successful (unconditional) mutator call that leaves
`cashBalance = -500 < 0`; it is not rejected. -/
theorem balance_nonneg_cex :
    (deposit (initialState 0) 1 (-1000)).balance < 0 ∧
    (deposit (initialState 0) 1 (-1000)).balance = -500 := by
  constructor <;> norm_num [deposit, initialState, INITIAL_BALANCE]

/-- C3 amended: for non-negative arguments (amount, price, a random draw in
`[0,1]` and a slippage percentage in `[0,100]`), every successful mutator —
deposit, buy, sell, claimDailyBonus — leaves `cashBalance ≥ 0`, and `buy`
rejects any call that would drive it negative. The unconditional `deposit`
(and `sell`) can drive the balance negative only with a negative argument. -/
theorem balance_nonneg_preserved (s : WalletState) (r : ℚ) (now : Nat)
    (symbol name shortName color : String) (amount price : ℚ)
    (today : String) (hbal : 0 ≤ s.balance) (hamt : 0 ≤ amount)
    (hp : 0 ≤ price) (hr0 : 0 ≤ r) (hr1 : r ≤ 1)
    (hsp0 : 0 ≤ s.slippagePercent) (hsp1 : s.slippagePercent ≤ 100) :
    0 ≤ (deposit s now amount).balance ∧
    0 ≤ (buy s r now symbol name shortName amount price color).1.balance ∧
    0 ≤ (sell s r now symbol amount price).1.balance ∧
    0 ≤ (claimDailyBonus s now today).1.balance := by
  refine ⟨?_, buy_balance_nonneg s r now symbol name shortName color amount
    price hbal, ?_, ?_⟩
  · show 0 ≤ s.balance + amount
    linarith
  · cases hrec : recLookup s.holdings symbol with
    | none =>
        have : (sell s r now symbol amount price).1 = s := by
          unfold sell; simp only [hrec]
        rw [this]; exact hbal
    | some holding =>
        by_cases hlt : holding.amount < amount
        · have : (sell s r now symbol amount price).1 = s := by
            unfold sell; simp only [hrec, if_pos hlt]
          rw [this]; exact hbal
        · rw [sell_balance_succ s r now symbol amount price holding hrec hlt]
          have hep : 0 ≤ (if s.slippageEnabled = true then
              getExecutedPrice r price s.slippagePercent false else price) := by
            by_cases hen : s.slippageEnabled = true
            · simp only [hen, if_true, getExecutedPrice, calculateSlippage,
                Bool.false_eq_true, if_false]
              nlinarith [mul_le_mul hr1 hsp1 hsp0 (by norm_num : (0:ℚ) ≤ 1)]
            · simp only [hen, if_false]
              exact hp
          rw [TRADING_FEE_PERCENT]
          nlinarith [mul_nonneg hamt hep]
  · unfold claimDailyBonus
    by_cases h1 : s.lastBonusClaim = some today
    · rw [if_pos (by simp [h1])]
      exact hbal
    · rw [if_neg (by simp [h1])]
      by_cases h2 : DAILY_BONUS s.userTier = 0
      · rw [if_pos (by simp [h2])]
        exact hbal
      · rw [if_neg (by simp [h2])]
        have hb := dailyBonus_nonneg s.userTier
        show 0 ≤ s.balance + DAILY_BONUS s.userTier
        linarith

/-- Witness for C3's amended theorem at the scenario wallet: a deposit of
100, a 100-USD buy, a full sell and a bonus claim all keep the balance
non-negative. -/
theorem balance_nonneg_preserved_witness :
    0 ≤ (deposit tpStart 1 (1 / 500)).balance ∧
    0 ≤ (buy tpStart 0 1 btc btcName btcShort (1 / 500) 50000
          btcColor).1.balance ∧
    0 ≤ (sell tpStart 0 1 btc (1 / 500) 50000).1.balance ∧
    0 ≤ (claimDailyBonus tpStart 1 depositName).1.balance :=
  balance_nonneg_preserved tpStart 0 1 btc btcName btcShort btcColor
    (1 / 500) 50000 depositName (by norm_num [tpStart]) (by norm_num)
    (by norm_num) (by norm_num) (by norm_num) (by norm_num [tpStart])
    (by norm_num [tpStart])

theorem buy_holdings_succ_new (s : WalletState) (r : ℚ) (now : Nat)
    (symbol name shortName color : String) (amount price : ℚ)
    (hc : ¬ amount + amount * (TRADING_FEE_PERCENT / 100) > s.balance)
    (hrec : recLookup s.holdings symbol = none) :
    (buy s r now symbol name shortName amount price color).1.holdings =
      recInsert s.holdings symbol
        ⟨symbol, name, shortName,
         amount / (if s.slippageEnabled = true then
           getExecutedPrice r price s.slippagePercent true else price),
         (if s.slippageEnabled = true then
           getExecutedPrice r price s.slippagePercent true else price),
         color⟩ := by
  simp only [buy, if_neg hc, hrec]

theorem buy_holdings_succ_existing (s : WalletState) (r : ℚ) (now : Nat)
    (symbol name shortName color : String) (amount price : ℚ) (h : Holding)
    (hc : ¬ amount + amount * (TRADING_FEE_PERCENT / 100) > s.balance)
    (hrec : recLookup s.holdings symbol = some h) :
    (buy s r now symbol name shortName amount price color).1.holdings =
      recInsert s.holdings symbol
        ⟨symbol, name, shortName,
         h.amount + amount / (if s.slippageEnabled = true then
           getExecutedPrice r price s.slippagePercent true else price),
         (h.amount * h.avgBuyPrice + amount) /
           (h.amount + amount / (if s.slippageEnabled = true then
             getExecutedPrice r price s.slippagePercent true else price)),
         color⟩ := by
  simp only [buy, if_neg hc, hrec]

theorem buy_slippage_frame (s : WalletState) (r : ℚ) (now : Nat)
    (symbol name shortName color : String) (amount price : ℚ) :
    (buy s r now symbol name shortName amount price color).1.slippageEnabled
      = s.slippageEnabled ∧
    (buy s r now symbol name shortName amount price color).1.slippagePercent
      = s.slippagePercent := by
  by_cases hc : amount + amount * (TRADING_FEE_PERCENT / 100) > s.balance
  · rw [buy_fail s r now symbol name shortName color amount price hc]
    exact ⟨rfl, rfl⟩
  · simp [buy, if_neg hc]

/-- C5: with slippage disabled and starting from no holding in the symbol,
buying notional `n1` at price `p1` then notional `n2` at price `p2` leaves
the holding's average cost at the cost-weighted average
`(q1*p1 + q2*p2)/(q1 + q2)` with `q1 = n1/p1`, `q2 = n2/p2` (exactly, in
exact arithmetic); the first buy sets the average cost to the executed
price `p1`. -/
theorem averageCost_weighted (s : WalletState) (r1 r2 : ℚ) (t1 t2 : Nat)
    (symbol name shortName color : String) (n1 p1 n2 p2 : ℚ)
    (hsl : s.slippageEnabled = false)
    (hnone : getHolding s symbol = none)
    (hp2 : 0 < p2)
    (hb1 : ¬ n1 + n1 * (TRADING_FEE_PERCENT / 100) > s.balance)
    (hb2 : ¬ n2 + n2 * (TRADING_FEE_PERCENT / 100) >
      (buy s r1 t1 symbol name shortName n1 p1 color).1.balance) :
    ∃ h1 h2 : Holding,
      getHolding (buy s r1 t1 symbol name shortName n1 p1 color).1 symbol
        = some h1 ∧
      h1.avgBuyPrice = p1 ∧ h1.amount = n1 / p1 ∧
      getHolding (buy (buy s r1 t1 symbol name shortName n1 p1 color).1
          r2 t2 symbol name shortName n2 p2 color).1 symbol = some h2 ∧
      h2.avgBuyPrice = ((n1 / p1) * p1 + (n2 / p2) * p2) /
        (n1 / p1 + n2 / p2) := by
  rw [getHolding] at hnone
  have hsl1 := (buy_slippage_frame s r1 t1 symbol name shortName color
    n1 p1).1
  rw [hsl] at hsl1
  have hstep1 : (buy s r1 t1 symbol name shortName n1 p1 color).1.holdings =
      recInsert s.holdings symbol
        ⟨symbol, name, shortName, n1 / p1, p1, color⟩ := by
    rw [buy_holdings_succ_new s r1 t1 symbol name shortName color n1 p1
      hb1 hnone, hsl]
    simp only [Bool.false_eq_true, if_false]
  have hlook1 : getHolding (buy s r1 t1 symbol name shortName n1 p1 color).1
      symbol = some ⟨symbol, name, shortName, n1 / p1, p1, color⟩ := by
    rw [getHolding, hstep1]
    exact recLookup_recInsert _ _ _
  have hstep2 : (buy (buy s r1 t1 symbol name shortName n1 p1 color).1
      r2 t2 symbol name shortName n2 p2 color).1.holdings =
      recInsert (buy s r1 t1 symbol name shortName n1 p1 color).1.holdings
        symbol
        ⟨symbol, name, shortName, n1 / p1 + n2 / p2,
         ((n1 / p1) * p1 + n2) / (n1 / p1 + n2 / p2), color⟩ := by
    rw [buy_holdings_succ_existing _ r2 t2 symbol name shortName color n2 p2
      _ hb2 hlook1, hsl1]
    simp only [Bool.false_eq_true, if_false]
  refine ⟨⟨symbol, name, shortName, n1 / p1, p1, color⟩,
    ⟨symbol, name, shortName, n1 / p1 + n2 / p2,
      ((n1 / p1) * p1 + n2) / (n1 / p1 + n2 / p2), color⟩,
    hlook1, rfl, rfl, ?_, ?_⟩
  · rw [getHolding, hstep2]
    exact recLookup_recInsert _ _ _
  · show ((n1 / p1) * p1 + n2) / (n1 / p1 + n2 / p2) =
      ((n1 / p1) * p1 + (n2 / p2) * p2) / (n1 / p1 + n2 / p2)
    rw [div_mul_cancel₀ n2 (ne_of_gt hp2)]

/-- Witness for C5: buying 100 USD at 50000 then 100 USD at 60000 with
slippage disabled yields the cost-weighted average cost. -/
theorem averageCost_weighted_witness :
    ∃ h1 h2 : Holding,
      getHolding (buy avgCostStart 0 1 btc btcName btcShort 100 50000
        btcColor).1 btc = some h1 ∧
      h1.avgBuyPrice = 50000 ∧ h1.amount = (100 : ℚ) / 50000 ∧
      getHolding (buy (buy avgCostStart 0 1 btc btcName btcShort 100 50000
          btcColor).1 0 2 btc btcName btcShort 100 60000 btcColor).1 btc
        = some h2 ∧
      h2.avgBuyPrice = (((100 : ℚ) / 50000) * 50000 +
        ((100 : ℚ) / 60000) * 60000) / ((100 : ℚ) / 50000 + 100 / 60000) := by
  refine averageCost_weighted avgCostStart 0 0 1 2 btc btcName btcShort
    btcColor 100 50000 100 60000 rfl rfl (by norm_num) ?_ ?_
  · norm_num [avgCostStart, initialState, INITIAL_BALANCE,
      TRADING_FEE_PERCENT]
  · rw [buy_balance_succ _ _ _ _ _ _ _ _ _ (by norm_num [avgCostStart,
      initialState, INITIAL_BALANCE, TRADING_FEE_PERCENT])]
    norm_num [avgCostStart, initialState, INITIAL_BALANCE,
      TRADING_FEE_PERCENT]

theorem tpPlaced_eq : tpPlaced =
    (tpMid, { success := true, orderId := some 2, error := none }) := by
  unfold tpPlaced placeTakeProfit
  rw [show recLookup tpStart.holdings btc = some tpHolding from
    recLookup_cons_pos _ _ _ rfl]
  simp only [tpHolding, not_lt.2 (le_refl ((1:ℚ) / 500)), if_neg,
    lt_self_iff_false, if_false]
  rfl

theorem tpSell_success :
    (sell tpMid 0 0 btc ((1/500 : ℚ)/55000) 55000).2.success = true := by
  unfold sell
  simp only [show recLookup tpMid.holdings btc = some tpHolding from
    recLookup_cons_pos _ _ _ rfl]
  rw [if_neg (show ¬ tpHolding.amount < 1/500/55000 by norm_num [tpHolding])]

theorem tpFold : tpAfter =
    markStatus (sell tpMid 0 0 btc ((1/500 : ℚ)/55000) 55000).1 2
      OrderStatus.filled := by
  have h1 : tpPlaced.1 = tpMid := congrArg Prod.fst tpPlaced_eq
  have hrec56 : recLookup [(btc, (56000:ℚ))] btc = some 56000 :=
    recLookup_cons_pos _ _ _ rfl
  have hd : decide ((56000:ℚ) ≥ 55000) = true := decide_eq_true (by norm_num)
  unfold tpAfter
  rw [h1]
  unfold checkAndExecuteOrders
  rw [show tpMid.pendingOrders = [tpOrder] from rfl, List.foldl_cons,
    List.foldl_nil]
  unfold processOrder
  simp only [tpOrder, hrec56, hd, tpSell_success,
    show ¬((56000:ℚ) = 0) by norm_num]
  simp

theorem sell_holdings_keep (s : WalletState) (r : ℚ) (now : Nat)
    (symbol : String) (amount price : ℚ) (holding : Holding)
    (hrec : recLookup s.holdings symbol = some holding)
    (hlt : ¬ holding.amount < amount)
    (hkeep : ¬ holding.amount - amount ≤ 1 / 100000000) :
    (sell s r now symbol amount price).1.holdings =
      recInsert s.holdings symbol
        { holding with amount := holding.amount - amount } := by
  unfold sell
  simp only [hrec, if_neg hlt, if_neg hkeep]

/-- C1 (divergence at the spec's concrete scenario): with a 0.002 BTC
holding at average cost 50000 and a take-profit for 0.002 BTC at 55000,
`checkAndExecuteOrders({BTCUSDT: 56000})` does mark the order `filled`, but
it re-divides the order's crypto amount by the target price (selling only
0.002/55000 BTC): the cash balance rises by 0.002×0.999 = 0.001998 instead
of 0.002×55000×0.999 = 109.89, and the BTCUSDT holding is not removed. -/
theorem takeProfit_trigger_divergence :
    tpPlaced.2.success = true ∧
    tpAfter.pendingOrders = [{ tpOrder with status := OrderStatus.filled }] ∧
    tpAfter.balance = tpStart.balance + 999 / 500000 ∧
    tpAfter.balance ≠ tpStart.balance + (1 / 500) * 55000 * (1 - 1 / 1000) ∧
    getHolding tpAfter btc ≠ none := by
  have hbal : tpAfter.balance = tpStart.balance + 999 / 500000 := by
    rw [tpFold]
    show (sell tpMid 0 0 btc ((1/500 : ℚ)/55000) 55000).1.balance = _
    rw [sell_balance_succ tpMid 0 0 btc _ 55000 tpHolding
      (recLookup_cons_pos _ _ _ rfl) (by norm_num [tpHolding])]
    norm_num [tpMid, tpStart, TRADING_FEE_PERCENT]
  refine ⟨by rw [tpPlaced_eq], ?_, hbal, ?_, ?_⟩
  · rw [tpFold, markStatus, sell_pendingOrders,
      show tpMid.pendingOrders = [tpOrder] from rfl]
    simp [markOrder, tpOrder]
  · rw [hbal]
    norm_num [tpStart]
  · rw [tpFold]
    show getHolding (sell tpMid 0 0 btc ((1/500 : ℚ)/55000) 55000).1 btc
      ≠ none
    rw [getHolding, sell_holdings_keep tpMid 0 0 btc _ 55000 tpHolding
      (recLookup_cons_pos _ _ _ rfl) (by norm_num [tpHolding])
      (by norm_num [tpHolding]), recLookup_recInsert]
    simp

/-! ## Terminal-order preservation machinery -/

theorem markOrder_ids (l : List PendingOrder) (oid : Nat) (st : OrderStatus) :
    (markOrder l oid st).map (fun o => o.id) = l.map (fun o => o.id) := by
  unfold markOrder
  rw [List.map_map]
  apply List.map_congr_left
  intro o _
  by_cases h : o.id = oid <;> simp [h]

theorem markOrder_length (l : List PendingOrder) (oid : Nat)
    (st : OrderStatus) : (markOrder l oid st).length = l.length :=
  List.length_map _ _

theorem markOrder_get_ne (l : List PendingOrder) (oid : Nat)
    (st : OrderStatus) (i : Nat) (hi : i < l.length)
    (hi' : i < (markOrder l oid st).length)
    (hne : (l.get ⟨i, hi⟩).id ≠ oid) :
    (markOrder l oid st).get ⟨i, hi'⟩ = l.get ⟨i, hi⟩ := by
  unfold markOrder at *
  rw [List.get_map]
  simp only [beq_iff_eq, hne, if_false]

theorem ordersInv_refl (s : WalletState) : OrdersInv s.pendingOrders s :=
  ⟨rfl, fun _ _ _ _ => rfl⟩

theorem ordersInv_length {base : List PendingOrder} {t : WalletState}
    (hinv : OrdersInv base t) : t.pendingOrders.length = base.length := by
  have := congrArg List.length hinv.1
  simpa using this

theorem ordersInv_of_eq {base : List PendingOrder} {t t' : WalletState}
    (h : t'.pendingOrders = t.pendingOrders) (hinv : OrdersInv base t) :
    OrdersInv base t' := by
  unfold OrdersInv at *
  rw [h]
  exact hinv

theorem ordersInv_markStatus {base : List PendingOrder}
    (hnod : (base.map (fun o => o.id)).Nodup) {order : PendingOrder}
    (hord : order ∈ base) (hpend : order.status = OrderStatus.pending)
    {t : WalletState} (hinv : OrdersInv base t) (st : OrderStatus) :
    OrdersInv base (markStatus t order.id st) := by
  obtain ⟨hids, hterm⟩ := hinv
  constructor
  · show (markOrder t.pendingOrders order.id st).map (fun o => o.id) = _
    rw [markOrder_ids, hids]
  · intro i hb ht hstat
    have hlen : t.pendingOrders.length = base.length :=
      ordersInv_length ⟨hids, hterm⟩
    have ht' : i < t.pendingOrders.length := by rw [hlen]; exact hb
    have hgi : t.pendingOrders.get ⟨i, ht'⟩ = base.get ⟨i, hb⟩ :=
      hterm i hb ht' hstat
    have hne : (t.pendingOrders.get ⟨i, ht'⟩).id ≠ order.id := by
      rw [hgi]
      obtain ⟨j, hj⟩ := List.mem_iff_get.1 hord
      intro heq
      have h3 : (base.map (fun o => o.id)).get ⟨i, by simpa using hb⟩ =
          (base.map (fun o => o.id)).get ⟨j.1, by simpa using j.isLt⟩ := by
        rw [List.get_map, List.get_map]
        show (base.get ⟨i, hb⟩).id = (base.get ⟨j.1, j.isLt⟩).id
        rw [show (⟨j.1, j.isLt⟩ : Fin base.length) = j from Fin.ext rfl, hj]
        exact heq
      have hij : i = j.1 := congrArg Fin.val (hnod.get_inj_iff.1 h3)
      have hgo : base.get ⟨i, hb⟩ = order := by
        rw [← hj]
        exact congrArg base.get (Fin.ext hij)
      rw [hgo] at hstat
      exact hstat hpend
    show (markOrder t.pendingOrders order.id st).get ⟨i, ht⟩ = _
    rw [markOrder_get_ne t.pendingOrders order.id st i ht' ht hne, hgi]

theorem processOrder_shape (rand : Nat → ℚ) (now : Nat) (prices : PriceMap)
    (acc : WalletState × Nat) (order : PendingOrder) :
    ∃ u : WalletState, u.pendingOrders = acc.1.pendingOrders ∧
      ((processOrder rand now prices acc order).1 = u ∨
       (order.status = OrderStatus.pending ∧ ∃ st : OrderStatus,
         (processOrder rand now prices acc order).1 =
           markStatus u order.id st)) := by
  unfold processOrder
  dsimp only
  repeat' split
  all_goals first
    | exact ⟨acc.1, rfl, Or.inl rfl⟩
    | exact ⟨acc.1, rfl, Or.inr
        ⟨not_ne_iff.1 ‹¬order.status ≠ OrderStatus.pending›,
         OrderStatus.expired, rfl⟩⟩
    | exact ⟨(buy acc.1 (rand acc.2) now order.symbol order.name
        order.shortName order.amount order.targetPrice order.color).1,
        buy_pendingOrders acc.1 (rand acc.2) now order.symbol order.name
          order.shortName order.color order.amount order.targetPrice,
        Or.inl rfl⟩
    | exact ⟨(buy acc.1 (rand acc.2) now order.symbol order.name
        order.shortName order.amount order.targetPrice order.color).1,
        buy_pendingOrders acc.1 (rand acc.2) now order.symbol order.name
          order.shortName order.color order.amount order.targetPrice,
        Or.inr ⟨not_ne_iff.1 ‹¬order.status ≠ OrderStatus.pending›,
          OrderStatus.filled, rfl⟩⟩
    | exact ⟨(sell acc.1 (rand acc.2) now order.symbol
        (order.amount / order.targetPrice) order.targetPrice).1,
        sell_pendingOrders acc.1 (rand acc.2) now order.symbol
          (order.amount / order.targetPrice) order.targetPrice,
        Or.inl rfl⟩
    | exact ⟨(sell acc.1 (rand acc.2) now order.symbol
        (order.amount / order.targetPrice) order.targetPrice).1,
        sell_pendingOrders acc.1 (rand acc.2) now order.symbol
          (order.amount / order.targetPrice) order.targetPrice,
        Or.inr ⟨not_ne_iff.1 ‹¬order.status ≠ OrderStatus.pending›,
          OrderStatus.filled, rfl⟩⟩

theorem processOrder_inv (base : List PendingOrder)
    (hnod : (base.map (fun o => o.id)).Nodup) (rand : Nat → ℚ) (now : Nat)
    (prices : PriceMap) (order : PendingOrder) (hord : order ∈ base)
    (acc : WalletState × Nat) (hinv : OrdersInv base acc.1) :
    OrdersInv base (processOrder rand now prices acc order).1 := by
  obtain ⟨u, hu, hcase⟩ := processOrder_shape rand now prices acc order
  rcases hcase with heq | ⟨hpend, st, heq⟩
  · rw [heq]
    exact ordersInv_of_eq hu hinv
  · rw [heq]
    exact ordersInv_markStatus hnod hord hpend (ordersInv_of_eq hu hinv) st

theorem foldl_processOrder_inv (base : List PendingOrder)
    (hnod : (base.map (fun o => o.id)).Nodup) (rand : Nat → ℚ) (now : Nat)
    (prices : PriceMap) :
    ∀ (orders : List PendingOrder) (acc : WalletState × Nat),
      (∀ o ∈ orders, o ∈ base) → OrdersInv base acc.1 →
      OrdersInv base
        ((orders.foldl (processOrder rand now prices) acc)).1 := by
  intro orders
  induction orders with
  | nil => intro acc _ h; exact h
  | cons o t ih =>
      intro acc hmem hinv
      rw [List.foldl_cons]
      exact ih _ (fun x hx => hmem x (List.mem_cons_of_mem _ hx))
        (processOrder_inv base hnod rand now prices o
          (hmem o (List.mem_cons_self _ _)) acc hinv)

/-- C8: an order in a terminal state (`filled`, `cancelled` or `expired`) is
never re-evaluated or changed by `checkAndExecuteOrders`, whatever price map
(and random draws and time) is supplied: the order list keeps its length and
every terminal entry is left identical, so repeated later calls leave every
terminal order untouched (assuming, as `generateId` guarantees, that order
ids are distinct). -/
theorem terminal_orders_immutable (s : WalletState) (rand : Nat → ℚ)
    (now : Nat) (prices : PriceMap)
    (hnod : (s.pendingOrders.map (fun o => o.id)).Nodup) :
    (checkAndExecuteOrders s rand now prices).pendingOrders.length
      = s.pendingOrders.length ∧
    ∀ (i : Nat) (hi : i < s.pendingOrders.length)
      (hi' : i <
        (checkAndExecuteOrders s rand now prices).pendingOrders.length),
      (s.pendingOrders.get ⟨i, hi⟩).status ≠ OrderStatus.pending →
      (checkAndExecuteOrders s rand now prices).pendingOrders.get ⟨i, hi'⟩
        = s.pendingOrders.get ⟨i, hi⟩ := by
  have hinv : OrdersInv s.pendingOrders
      (checkAndExecuteOrders s rand now prices) := by
    unfold checkAndExecuteOrders
    exact foldl_processOrder_inv s.pendingOrders hnod rand now prices
      s.pendingOrders (s, 0) (fun _ h => h) (ordersInv_refl s)
  exact ⟨ordersInv_length hinv, hinv.2⟩

/-- Witness for C8: a wallet whose only order is cancelled is left with that
exact order by a `checkAndExecuteOrders` pass at a triggering price. -/
theorem terminal_orders_immutable_witness :
    (checkAndExecuteOrders cancelledOrderState (fun _ => 0) 20
        [(btc, 44000)]).pendingOrders.length
      = cancelledOrderState.pendingOrders.length ∧
    (checkAndExecuteOrders cancelledOrderState (fun _ => 0) 20
        [(btc, 44000)]).pendingOrders.get
        ⟨0, by
          have h := (terminal_orders_immutable cancelledOrderState
            (fun _ => 0) 20 [(btc, 44000)] (by simp [cancelledOrderState])).1
          rw [h]
          norm_num [cancelledOrderState]⟩
      = cancelledOrderState.pendingOrders.get
        ⟨0, by norm_num [cancelledOrderState]⟩ := by
  have h := terminal_orders_immutable cancelledOrderState (fun _ => 0) 20
    [(btc, 44000)] (by simp [cancelledOrderState])
  exact ⟨h.1, h.2 0 (by norm_num [cancelledOrderState]) _
    (by simp [cancelledOrderState])⟩
